import Mathlib

/-!
Verification of the SSDP discovery core of `aioupnp/protocols/ssdp.py`.

The engine state is embedded shallowly: the mutable list
`SSDPProtocol._pending_searches` becomes a `List Entry`; asyncio `Future`s
become identifiers into a map `ℕ → FutState` (a future is `pending`, holds a
`result`, or is `cancelled`); timeout `Handle`s become identifiers into a map
`ℕ → Bool` recording whether `cancel()` was called on them.  The reply
callback `_callback_m_search_ok`, which pops every entry off the end of the
list and rebuilds the kept ones, is translated as a scan over the reversed
list followed by a final reversal, exactly mirroring the two `while`/`pop`
loops of the source.
-/

/-- An SSDP reply datagram as far as the matching logic consumes it: only its
search-target header `st` is inspected by `_callback_m_search_ok`. -/
structure Packet where
  st : String
deriving DecidableEq, Repr

/-- The state of an asyncio `Future` used as a result slot: not yet resolved,
resolved with a reply packet by `set_result`, or cancelled. -/
inductive FutState where
  | pending
  | result (p : Packet)
  | cancelled
deriving DecidableEq, Repr

/-- Python `Future.done()`: true once the future holds a result or is cancelled. -/
def FutState.done : FutState → Bool
  | .pending => false
  | _ => true

/-- One element of `SSDPProtocol._pending_searches`: the tuple
`(address, packet.st, fut, handle)` registered by `SSDPProtocol.m_search`. -/
structure Entry where
  addr : String
  st : String
  fut : ℕ
  handle : ℕ
deriving DecidableEq, Repr

/-- The engine state owned by one `SSDPProtocol` instance: the pending-search
registry, the futures, and for each timeout handle whether it was cancelled. -/
structure EngineState where
  pending : List Entry
  futs : ℕ → FutState
  handles : ℕ → Bool

/-- The call `f.set_result(packet)` guarded by the source's `if not f.done()`: a done
future is left untouched, a pending one is set to `result pkt`. -/
def setResult (futs : ℕ → FutState) (i : ℕ) (pkt : Packet) : ℕ → FutState :=
  if (futs i).done then futs else fun j => if j = i then .result pkt else futs j

/-- The call `fut.cancel()` (asyncio semantics): cancelling a done future is a no-op,
cancelling a pending one marks it cancelled.  This is the action the timeout
handle scheduled by `SSDPProtocol.m_search` performs when it fires. -/
def futCancel (futs : ℕ → FutState) (i : ℕ) : ℕ → FutState :=
  if (futs i).done then futs else fun j => if j = i then .cancelled else futs j

/-- The call `h.cancel()` on a timeout handle. -/
def cancelHandle (hs : ℕ → Bool) (i : ℕ) : ℕ → Bool :=
  fun j => if j = i then true else hs j

/-- The source's match test for one popped tuple:
`(address == a) and (s in [packet.st, "upnp:rootdevice"])` — the sender
address must equal the entry's target address, and the entry's own
search-target must equal the reply's `st` or be the literal
`"upnp:rootdevice"`. -/
def matchesB (address : String) (pkt : Packet) (e : Entry) : Bool :=
  address == e.addr && (e.st == pkt.st || e.st == "upnp:rootdevice")

/-- Result of the first `while` loop of `_callback_m_search_ok`: the kept
entries (`tmp`, in scan order), the `set_futures` list, and the updated
future and handle maps. -/
structure ScanResult where
  kept : List Entry
  setFutures : List ℕ
  futs : ℕ → FutState
  handles : ℕ → Bool

/-- The first `while` loop of `_callback_m_search_ok`, processing entries in
the order the source pops them (end of the list first, so the caller passes
the reversed registry).  A matching entry has its handle cancelled; if its
future is not yet in `set_futures` it is appended there and, when not done,
resolved with the packet.  A non-matching entry is kept in `tmp` unless its
future is already in `set_futures`. -/
def scanEntries (address : String) (pkt : Packet) :
    List Entry → List ℕ → (ℕ → FutState) → (ℕ → Bool) → ScanResult
  | [], setF, futs, hs => ⟨[], setF, futs, hs⟩
  | e :: rest, setF, futs, hs =>
    if matchesB address pkt e then
      if e.fut ∈ setF then
        scanEntries address pkt rest setF futs (cancelHandle hs e.handle)
      else
        scanEntries address pkt rest (setF ++ [e.fut]) (setResult futs e.fut pkt)
          (cancelHandle hs e.handle)
    else if e.fut ∈ setF then
      scanEntries address pkt rest setF futs hs
    else
      let r := scanEntries address pkt rest setF futs hs
      ⟨e :: r.kept, r.setFutures, r.futs, r.handles⟩

/-- The callback `SSDPProtocol._callback_m_search_ok(address, packet)`: scan the registry
from its end (`pop()`), then push the kept entries back by popping `tmp`,
which restores the kept entries' original relative order. -/
def callback_m_search_ok (address : String) (pkt : Packet) (s : EngineState) :
    EngineState :=
  let r := scanEntries address pkt s.pending.reverse [] s.futs s.handles
  ⟨r.kept.reverse, r.futs, r.handles⟩

/-- Errors surfacing from the module-level operations: the repo's `UPnPError`
with its message, Python's `AssertionError` from a failed `assert`, and any
other exception. -/
inductive MErr where
  | upnp (msg : String)
  | assertionError
  | other
deriving DecidableEq, Repr

/-- Modelled from the spec: `SSDP_PORT` is imported from `aioupnp.constants`,
which is not among the given sources; spec §6 fixes the well-known SSDP port
to 1900. -/
def SSDP_PORT : ℕ := 1900

/-- The message `"M-SEARCH for {}:{} timed out".format(gateway_address, SSDP_PORT)`
raised by the module-level `m_search` and by `_fuzzy_m_search`. -/
def timeoutMsg (gw : String) : String :=
  "M-SEARCH for " ++ gw ++ ":" ++ toString SSDP_PORT ++ " timed out"

/-- The message of the error raised by `fuzzy_m_search` when every candidate
of the viable batch fails its individual retry. -/
def failedMsg : String := "failed to discover gateway"

/-- One search parameter set (`OrderedDict`) handed to
`SSDPDatagram(SSDPDatagram._M_SEARCH, datagram)`; the matching logic only
consults the resulting packet's `st`, which may be absent (`None`). -/
structure ParamSet where
  st : Option String
deriving DecidableEq, Repr

/-- The packet-building loop of `SSDPProtocol.m_search`: for each datagram
construct the M-SEARCH packet and `assert packet.st is not None`.  The first
datagram with a null search target aborts the loop with an `AssertionError`;
otherwise the list of built packets is returned.  `send_many_m_searches`
runs only after this whole loop has finished. -/
def buildPackets : List ParamSet → Except MErr (List Packet)
  | [] => .ok []
  | d :: rest =>
    match d.st with
    | none => .error .assertionError
    | some s =>
      match buildPackets rest with
      | .ok ps => .ok (⟨s⟩ :: ps)
      | .error e => .error e

/-- The packets `SSDPProtocol.m_search` actually hands to
`send_many_m_searches` (network I/O): none when the assertion fails first. -/
def sentPackets (datagrams : List ParamSet) : List Packet :=
  match buildPackets datagrams with
  | .ok ps => ps
  | .error _ => []

/-- Outcome of awaiting `protocol.m_search`'s shared future from the
module-level wrapper: a reply, a timeout/cancellation, or any other error. -/
inductive AwaitOutcome where
  | ok (p : Packet)
  | timeoutOrCancelled
  | otherError
deriving DecidableEq, Repr

/-- The module-level `m_search(lan_address, gateway_address, datagram_args,
timeout)`: after `listen_ssdp` acquires the transport, the body runs
`protocol.m_search` under `try/except (TimeoutError, CancelledError)/finally`.
Returned is the surfaced result together with how many times the transport
acquired by this call is closed.  An `AssertionError` from the packet-building
loop is not caught by the `except` clause; a timeout or cancellation is
replaced by `UPnPError(timeoutMsg)`; the `finally` closes the transport on
every path. -/
def m_search_module (gw : String) (d : ParamSet) (o : AwaitOutcome) :
    Except MErr Packet × ℕ :=
  match buildPackets [d] with
  | .error e => (.error e, 1)
  | .ok _ =>
    match o with
    | .ok p => (.ok p, 1)
    | .timeoutOrCancelled => (.error (.upnp (timeoutMsg gw)), 1)
    | .otherError => (.error .other, 1)

/-- The batching of `_fuzzy_m_search`'s `while` loop with its constant
`batch_size = 2`: `args = packet_args[:2]; packet_args = packet_args[2:]`. -/
def chunks2 {α : Type} : List α → List (List α)
  | [] => []
  | [a] => [[a]]
  | a :: b :: rest => [a, b] :: chunks2 rest

/-- The quantity `batch_timeout = float(timeout) / float(len(packet_args))` of
`_fuzzy_m_search`, over exact rationals. -/
def batchTimeout (timeout : ℚ) (candidateCount : ℕ) : ℚ :=
  timeout / candidateCount

/-- The batch loop of `_fuzzy_m_search`: each batch is awaited through
`protocol.m_search` with the shared `batch_timeout` (the oracle says how that
await ends); a reply returns the current batch, a timeout or cancellation
moves on to the next batch, any other error propagates, and exhaustion raises
`UPnPError(timeoutMsg)`. -/
def fuzzyGo (gw : String) (oracle : List ParamSet → ℚ → AwaitOutcome)
    (bt : ℚ) : List (List ParamSet) → Except MErr (List ParamSet)
  | [] => .error (.upnp (timeoutMsg gw))
  | b :: rest =>
    match oracle b bt with
    | .ok _ => .ok b
    | .timeoutOrCancelled => fuzzyGo gw oracle bt rest
    | .otherError => .error .other

/-- The coroutine `_fuzzy_m_search(lan_address, gateway_address, timeout)`: acquire a
transport through `listen_ssdp`, then run the batch loop.  The second
component counts how many times that transport is closed before the function
returns or raises: the source has no `finally` and never calls
`transport.close()`, so the count is 0 on every path. -/
def fuzzy_m_search_run (gw : String) (cands : List ParamSet) (timeout : ℚ)
    (oracle : List ParamSet → ℚ → AwaitOutcome) :
    Except MErr (List ParamSet) × ℕ :=
  (fuzzyGo gw oracle (batchTimeout timeout cands.length) (chunks2 cands), 0)

/-- The disambiguation loop of `fuzzy_m_search`: each candidate of the viable
batch is retried through a fresh module-level `m_search` with the fixed
timeout 3 (`searchFn a 3`); a `UPnPError` moves on to the next candidate, any
other error propagates, the first success returns `(args, packet)`, and
exhaustion raises `UPnPError("failed to discover gateway")`. -/
def disambiguate (searchFn : ParamSet → ℚ → Except MErr Packet) :
    List ParamSet → Except MErr (ParamSet × Packet)
  | [] => .error (.upnp failedMsg)
  | a :: rest =>
    match searchFn a 3 with
    | .ok p => .ok (a, p)
    | .error (.upnp _) => disambiguate searchFn rest
    | .error e => .error e

example :
    (callback_m_search_ok "a" ⟨"t1"⟩
      ⟨[⟨"a", "t1", 0, 0⟩], fun _ => .pending, fun _ => false⟩).futs 0 =
    .result ⟨"t1"⟩ := by decide

example :
    (callback_m_search_ok "a" ⟨"upnp:rootdevice"⟩
      ⟨[⟨"a", "t1", 0, 0⟩], fun _ => .pending, fun _ => false⟩).futs 0 =
    .pending := by decide

/-! ### Pointwise lemmas about the future and handle primitives -/

theorem setResult_apply_ne {futs : ℕ → FutState} {i j : ℕ} {p : Packet}
    (hj : j ≠ i) : setResult futs i p j = futs j := by
  unfold setResult
  split
  · rfl
  · simp [hj]

theorem setResult_done {futs : ℕ → FutState} {i : ℕ} {p : Packet}
    (hd : (futs i).done = true) : setResult futs i p = futs := by
  simp [setResult, hd]

theorem setResult_pending_self {futs : ℕ → FutState} {i : ℕ} {p : Packet}
    (hp : futs i = .pending) : setResult futs i p i = .result p := by
  simp [setResult, hp, FutState.done]

theorem setResult_cases (futs : ℕ → FutState) (i : ℕ) (p : Packet) (j : ℕ) :
    setResult futs i p j = futs j ∨
      ((futs i).done = false ∧ j = i ∧ setResult futs i p j = .result p) := by
  unfold setResult
  split
  · exact Or.inl rfl
  · rename_i hd
    rw [Bool.not_eq_true] at hd
    by_cases hj : j = i
    · exact Or.inr ⟨hd, hj, by simp [hj]⟩
    · exact Or.inl (by simp [hj])

theorem futCancel_done {futs : ℕ → FutState} {i : ℕ}
    (hd : (futs i).done = true) : futCancel futs i = futs := by
  simp [futCancel, hd]

theorem futCancel_pending_self {futs : ℕ → FutState} {i : ℕ}
    (hp : futs i = .pending) : futCancel futs i i = .cancelled := by
  simp [futCancel, hp, FutState.done]

theorem cancelHandle_self (hs : ℕ → Bool) (i : ℕ) :
    cancelHandle hs i i = true := by
  simp [cancelHandle]

theorem cancelHandle_mono {hs : ℕ → Bool} {i j : ℕ} (h : hs j = true) :
    cancelHandle hs i j = true := by
  unfold cancelHandle
  split <;> simp [h]

/-! ### Behaviour of the matching scan -/

/-- Each future slot is either left untouched by the scan or was pending and
got resolved with the reply packet: the scan never cancels a slot and never
rewrites a done slot. -/
theorem scan_futs_cases (address : String) (pkt : Packet) :
    ∀ (l : List Entry) (setF : List ℕ) (futs : ℕ → FutState) (hs : ℕ → Bool)
      (i : ℕ),
      (scanEntries address pkt l setF futs hs).futs i = futs i ∨
        ((futs i).done = false ∧
          (scanEntries address pkt l setF futs hs).futs i = .result pkt) := by
  intro l
  induction l with
  | nil => intro setF futs hs i; exact Or.inl rfl
  | cons e rest ih =>
    intro setF futs hs i
    simp only [scanEntries]
    by_cases hm : matchesB address pkt e
    · simp only [hm, if_true]
      by_cases hf : e.fut ∈ setF
      · simp only [if_pos hf]
        exact ih setF futs (cancelHandle hs e.handle) i
      · simp only [if_neg hf]
        rcases ih (setF ++ [e.fut]) (setResult futs e.fut pkt)
            (cancelHandle hs e.handle) i with h | ⟨hd, hr⟩
        · rw [h]
          rcases setResult_cases futs e.fut pkt i with h2 | ⟨hd2, hji, hr2⟩
          · exact Or.inl h2
          · subst hji
            exact Or.inr ⟨hd2, hr2⟩
        · rcases setResult_cases futs e.fut pkt i with h2 | ⟨_, _, hr2⟩
          · rw [h2] at hd
            exact Or.inr ⟨hd, hr⟩
          · rw [hr2] at hd
            simp [FutState.done] at hd
    · simp only [hm, Bool.false_eq_true, if_false]
      by_cases hf : e.fut ∈ setF
      · simp only [if_pos hf]
        exact ih setF futs hs i
      · simp only [if_neg hf]
        exact ih setF futs hs i

/-- A slot that is already done before the scan is not changed by it. -/
theorem scan_futs_done {address : String} {pkt : Packet}
    {l : List Entry} {setF : List ℕ} {futs : ℕ → FutState} {hs : ℕ → Bool}
    {i : ℕ} (hd : (futs i).done = true) :
    (scanEntries address pkt l setF futs hs).futs i = futs i := by
  rcases scan_futs_cases address pkt l setF futs hs i with h | ⟨hd2, _⟩
  · exact h
  · rw [hd] at hd2; cases hd2

/-- If a matching entry for slot `i` occurs in the scanned list, the slot is
pending, and `i` is not yet in `set_futures`, the scan resolves slot `i`
with the reply packet. -/
theorem scan_resolves (address : String) (pkt : Packet) :
    ∀ (l : List Entry) (setF : List ℕ) (futs : ℕ → FutState) (hs : ℕ → Bool)
      (e : Entry), e ∈ l → matchesB address pkt e = true →
      futs e.fut = .pending → e.fut ∉ setF →
      (scanEntries address pkt l setF futs hs).futs e.fut = .result pkt := by
  intro l
  induction l with
  | nil => intro _ _ _ _ he; cases he
  | cons e' rest ih =>
    intro setF futs hs e he hm hp hns
    simp only [scanEntries]
    by_cases hm' : matchesB address pkt e'
    · simp only [hm', if_true]
      by_cases hf' : e'.fut ∈ setF
      · simp only [if_pos hf']
        have herest : e ∈ rest := by
          rcases List.mem_cons.mp he with rfl | h
          · exact absurd hf' hns
          · exact h
        exact ih setF futs (cancelHandle hs e'.handle) e herest hm hp hns
      · simp only [if_neg hf']
        by_cases hq : e.fut = e'.fut
        · have hp' : futs e'.fut = .pending := hq ▸ hp
          have hres : setResult futs e'.fut pkt e.fut = .result pkt := by
            rw [hq]; exact setResult_pending_self hp'
          have hdone : ((setResult futs e'.fut pkt) e.fut).done = true := by
            rw [hres]; rfl
          rw [scan_futs_done hdone, hres]
        · have herest : e ∈ rest := by
            rcases List.mem_cons.mp he with rfl | h
            · exact absurd rfl hq
            · exact h
          have hp' : setResult futs e'.fut pkt e.fut = .pending := by
            rw [setResult_apply_ne hq, hp]
          have hns' : e.fut ∉ setF ++ [e'.fut] := by
            simp only [List.mem_append, List.mem_singleton]
            rintro (h | h)
            · exact hns h
            · exact hq h
          exact ih (setF ++ [e'.fut]) (setResult futs e'.fut pkt)
            (cancelHandle hs e'.handle) e herest hm hp' hns'
    · have hne : e ≠ e' := by
        rintro rfl; rw [hm] at hm'; exact hm' rfl
      have herest : e ∈ rest := by
        rcases List.mem_cons.mp he with rfl | h
        · exact absurd rfl hne
        · exact h
      simp only [hm', Bool.false_eq_true, if_false]
      by_cases hf' : e'.fut ∈ setF
      · simp only [if_pos hf']
        exact ih setF futs hs e herest hm hp hns
      · simp only [if_neg hf']
        exact ih setF futs hs e herest hm hp hns

/-- Handle cancellations are never undone by the scan. -/
theorem scan_handles_mono (address : String) (pkt : Packet) :
    ∀ (l : List Entry) (setF : List ℕ) (futs : ℕ → FutState) (hs : ℕ → Bool)
      (j : ℕ), hs j = true →
      (scanEntries address pkt l setF futs hs).handles j = true := by
  intro l
  induction l with
  | nil => intro _ _ _ _ h; exact h
  | cons e rest ih =>
    intro setF futs hs j hj
    simp only [scanEntries]
    by_cases hm : matchesB address pkt e
    · simp only [hm, if_true]
      by_cases hf : e.fut ∈ setF
      · simp only [if_pos hf]
        exact ih _ _ _ _ (cancelHandle_mono hj)
      · simp only [if_neg hf]
        exact ih _ _ _ _ (cancelHandle_mono hj)
    · simp only [hm, Bool.false_eq_true, if_false]
      by_cases hf : e.fut ∈ setF
      · simp only [if_pos hf]
        exact ih _ _ _ _ hj
      · simp only [if_neg hf]
        exact ih _ _ _ _ hj

/-- Every matching entry of the scanned list gets its timeout handle
cancelled by the scan. -/
theorem scan_cancels_matched (address : String) (pkt : Packet) :
    ∀ (l : List Entry) (setF : List ℕ) (futs : ℕ → FutState) (hs : ℕ → Bool)
      (e : Entry), e ∈ l → matchesB address pkt e = true →
      (scanEntries address pkt l setF futs hs).handles e.handle = true := by
  intro l
  induction l with
  | nil => intro _ _ _ _ he; cases he
  | cons e' rest ih =>
    intro setF futs hs e he hm
    simp only [scanEntries]
    by_cases hm' : matchesB address pkt e'
    · simp only [hm', if_true]
      rcases List.mem_cons.mp he with rfl | herest
      · by_cases hf : e.fut ∈ setF
        · simp only [if_pos hf]
          exact scan_handles_mono _ _ _ _ _ _ _ (cancelHandle_self hs e.handle)
        · simp only [if_neg hf]
          exact scan_handles_mono _ _ _ _ _ _ _ (cancelHandle_self hs e.handle)
      · by_cases hf : e'.fut ∈ setF
        · simp only [if_pos hf]
          exact ih _ _ _ e herest hm
        · simp only [if_neg hf]
          exact ih _ _ _ e herest hm
    · have herest : e ∈ rest := by
        rcases List.mem_cons.mp he with rfl | h
        · rw [hm] at hm'; exact absurd rfl hm'
        · exact h
      simp only [hm', Bool.false_eq_true, if_false]
      by_cases hf : e'.fut ∈ setF
      · simp only [if_pos hf]
        exact ih _ _ _ e herest hm
      · simp only [if_neg hf]
        exact ih _ _ _ e herest hm

/-- Every entry the scan keeps comes from the scanned list and does not
match the reply. -/
theorem scan_kept_sound (address : String) (pkt : Packet) :
    ∀ (l : List Entry) (setF : List ℕ) (futs : ℕ → FutState) (hs : ℕ → Bool)
      (e : Entry), e ∈ (scanEntries address pkt l setF futs hs).kept →
      e ∈ l ∧ matchesB address pkt e = false := by
  intro l
  induction l with
  | nil => intro _ _ _ _ he; cases he
  | cons e' rest ih =>
    intro setF futs hs e he
    simp only [scanEntries] at he
    by_cases hm' : matchesB address pkt e'
    · simp only [hm', if_true] at he
      by_cases hf : e'.fut ∈ setF
      · rw [if_pos hf] at he
        obtain ⟨h1, h2⟩ := ih _ _ _ e he
        exact ⟨List.mem_cons_of_mem _ h1, h2⟩
      · rw [if_neg hf] at he
        obtain ⟨h1, h2⟩ := ih _ _ _ e he
        exact ⟨List.mem_cons_of_mem _ h1, h2⟩
    · simp only [hm', Bool.false_eq_true, if_false] at he
      by_cases hf : e'.fut ∈ setF
      · rw [if_pos hf] at he
        obtain ⟨h1, h2⟩ := ih _ _ _ e he
        exact ⟨List.mem_cons_of_mem _ h1, h2⟩
      · rw [if_neg hf] at he
        rcases List.mem_cons.mp he with rfl | h
        · exact ⟨List.mem_cons_self _ _, Bool.eq_false_iff.mpr hm'⟩
        · obtain ⟨h1, h2⟩ := ih _ _ _ e h
          exact ⟨List.mem_cons_of_mem _ h1, h2⟩

/-- A slot for which no entry of the scanned list matches is left exactly as
it was. -/
theorem scan_futs_frame (address : String) (pkt : Packet) :
    ∀ (l : List Entry) (setF : List ℕ) (futs : ℕ → FutState) (hs : ℕ → Bool)
      (i : ℕ), (∀ e ∈ l, e.fut = i → matchesB address pkt e = false) →
      (scanEntries address pkt l setF futs hs).futs i = futs i := by
  intro l
  induction l with
  | nil => intro _ _ _ _ _; rfl
  | cons e' rest ih =>
    intro setF futs hs i hno
    have hno' : ∀ e ∈ rest, e.fut = i → matchesB address pkt e = false :=
      fun e he => hno e (List.mem_cons_of_mem _ he)
    simp only [scanEntries]
    by_cases hm' : matchesB address pkt e'
    · have hni : e'.fut ≠ i := by
        intro h
        rw [hno e' (List.mem_cons_self _ _) h] at hm'
        cases hm'
      simp only [hm', if_true]
      by_cases hf : e'.fut ∈ setF
      · simp only [if_pos hf]
        exact ih _ _ _ i hno'
      · simp only [if_neg hf]
        rw [ih _ _ _ i hno']
        exact setResult_apply_ne (fun h => hni h.symm)
    · simp only [hm', Bool.false_eq_true, if_false]
      by_cases hf : e'.fut ∈ setF
      · simp only [if_pos hf]
        exact ih _ _ _ i hno'
      · simp only [if_neg hf]
        exact ih _ _ _ i hno'

/-- Entries singled out by a predicate `P` that selects only non-matching
entries whose slot is shared by no matching entry survive the scan exactly,
in their original relative order. -/
theorem scan_kept_filter (address : String) (pkt : Packet) (P : Entry → Bool)
    (hPm : ∀ e, P e = true → matchesB address pkt e = false) :
    ∀ (l : List Entry) (setF : List ℕ) (futs : ℕ → FutState) (hs : ℕ → Bool),
      (∀ e, P e = true → e.fut ∉ setF) →
      (∀ e e', P e = true → e' ∈ l → matchesB address pkt e' = true →
        e'.fut ≠ e.fut) →
      ((scanEntries address pkt l setF futs hs).kept).filter P =
        l.filter P := by
  intro l
  induction l with
  | nil => intro _ _ _ _ _; rfl
  | cons e' rest ih =>
    intro setF futs hs hsetF hshare
    have hshare' : ∀ e e'', P e = true → e'' ∈ rest →
        matchesB address pkt e'' = true → e''.fut ≠ e.fut :=
      fun e e'' hP he'' => hshare e e'' hP (List.mem_cons_of_mem _ he'')
    simp only [scanEntries]
    by_cases hm' : matchesB address pkt e'
    · have hP' : P e' = false := by
        by_contra h
        rw [Bool.not_eq_false] at h
        rw [hPm e' h] at hm'
        cases hm'
      simp only [hm', if_true]
      by_cases hf : e'.fut ∈ setF
      · simp only [if_pos hf]
        rw [ih _ _ _ hsetF hshare', List.filter_cons, hP']
        simp
      · simp only [if_neg hf]
        have hsetF' : ∀ e, P e = true → e.fut ∉ setF ++ [e'.fut] := by
          intro e hP
          simp only [List.mem_append, List.mem_singleton]
          rintro (h | h)
          · exact hsetF e hP h
          · exact hshare e e' hP (List.mem_cons_self _ _) hm' h.symm
        rw [ih _ _ _ hsetF' hshare', List.filter_cons, hP']
        simp
    · simp only [hm', Bool.false_eq_true, if_false]
      by_cases hf : e'.fut ∈ setF
      · have hP' : P e' = false := by
          by_contra h
          rw [Bool.not_eq_false] at h
          exact hsetF e' h hf
        simp only [if_pos hf]
        rw [ih _ _ _ hsetF hshare', List.filter_cons, hP']
        simp
      · simp only [if_neg hf]
        simp only [List.filter_cons]
        rw [ih _ _ _ hsetF hshare']

/-! ### Claim C1 -/

/-- C1 counterexample: a reply from address `10.0.0.2` whose search target is
`"upnp:rootdevice"` does NOT resolve a still-pending search for that address
with a different target (`"urn:igd"`): the slot stays pending and the entry
stays registered.  The source's wildcard test is `s in [packet.st,
"upnp:rootdevice"]`, so the wildcard is the pending entry's own target, not
the reply's. -/
theorem C1_rootdevice_reply_not_wildcard_cex :
    (callback_m_search_ok "10.0.0.2" ⟨"upnp:rootdevice"⟩
      ⟨[⟨"10.0.0.2", "urn:igd", 0, 0⟩], fun _ => .pending,
        fun _ => false⟩).futs 0 = .pending ∧
    (callback_m_search_ok "10.0.0.2" ⟨"upnp:rootdevice"⟩
      ⟨[⟨"10.0.0.2", "urn:igd", 0, 0⟩], fun _ => .pending,
        fun _ => false⟩).pending = [⟨"10.0.0.2", "urn:igd", 0, 0⟩] := by
  decide

/-- C1 (amended): the root-device wildcard sits on the pending search's own
target: a still-pending search registered for address A whose own
search-target string is `"upnp:rootdevice"` is resolved by a reply from A
regardless of the reply's search target. -/
theorem C1_pending_rootdevice_wildcard (s : EngineState) (address : String)
    (pkt : Packet) (e : Entry) (he : e ∈ s.pending) (ha : e.addr = address)
    (hst : e.st = "upnp:rootdevice") (hp : s.futs e.fut = .pending) :
    (callback_m_search_ok address pkt s).futs e.fut = .result pkt := by
  have hm : matchesB address pkt e = true := by
    simp [matchesB, ha, hst]
  simp only [callback_m_search_ok]
  exact scan_resolves address pkt s.pending.reverse [] s.futs s.handles e
    (List.mem_reverse.mpr he) hm hp (List.not_mem_nil _)

theorem C1_pending_rootdevice_wildcard_witness :
    (callback_m_search_ok "10.0.0.2" ⟨"urn:igd"⟩
      ⟨[⟨"10.0.0.2", "upnp:rootdevice", 0, 0⟩], fun _ => .pending,
        fun _ => false⟩).futs 0 = .result ⟨"urn:igd"⟩ :=
  C1_pending_rootdevice_wildcard _ "10.0.0.2" ⟨"urn:igd"⟩
    ⟨"10.0.0.2", "upnp:rootdevice", 0, 0⟩ (by decide) rfl rfl rfl

/-! ### Claim C3 -/

/-- C3 counterexample: P1 = ("a", "t1"), P2 = ("a", "upnp:rootdevice"),
T2 ≠ T1, yet a reply from "a" with target "t1" resolves P2's slot as well,
because P2's own target is the root-device wildcard. -/
theorem C3_rootdevice_target_also_resolved_cex :
    (callback_m_search_ok "a" ⟨"t1"⟩
      ⟨[⟨"a", "t1", 0, 0⟩, ⟨"a", "upnp:rootdevice", 1, 1⟩],
        fun _ => .pending, fun _ => false⟩).futs 1 = .result ⟨"t1"⟩ := by
  decide

/-- C3 (amended): for pending P1 on address A with target T1 and P2 on A with
target T2 ≠ T1, a reply from A with target T1 resolves P1 and leaves P2's
slot untouched, provided T2 is not the wildcard `"upnp:rootdevice"` and no
pending record sharing P2's result slot matches the reply. -/
theorem C3_exact_target_selectivity (s : EngineState) (A T1 T2 : String)
    (e1 e2 : Entry) (he1 : e1 ∈ s.pending) (he2 : e2 ∈ s.pending)
    (ha1 : e1.addr = A) (ha2 : e2.addr = A) (ht1 : e1.st = T1)
    (ht2 : e2.st = T2) (hne : T2 ≠ T1) (hnr : T2 ≠ "upnp:rootdevice")
    (hp1 : s.futs e1.fut = .pending)
    (hshare : ∀ e ∈ s.pending, e.fut = e2.fut → matchesB A ⟨T1⟩ e = false) :
    (callback_m_search_ok A ⟨T1⟩ s).futs e1.fut = .result ⟨T1⟩ ∧
      (callback_m_search_ok A ⟨T1⟩ s).futs e2.fut = s.futs e2.fut := by
  constructor
  · have hm : matchesB A ⟨T1⟩ e1 = true := by
      simp [matchesB, ha1, ht1]
    simp only [callback_m_search_ok]
    exact scan_resolves A ⟨T1⟩ s.pending.reverse [] s.futs s.handles e1
      (List.mem_reverse.mpr he1) hm hp1 (List.not_mem_nil _)
  · simp only [callback_m_search_ok]
    exact scan_futs_frame A ⟨T1⟩ s.pending.reverse [] s.futs s.handles e2.fut
      (fun e he hf => hshare e (List.mem_reverse.mp he) hf)

theorem C3_exact_target_selectivity_witness :
    (callback_m_search_ok "a" ⟨"t1"⟩
      ⟨[⟨"a", "t1", 0, 0⟩, ⟨"a", "t2", 1, 1⟩], fun _ => .pending,
        fun _ => false⟩).futs 0 = .result ⟨"t1"⟩ ∧
    (callback_m_search_ok "a" ⟨"t1"⟩
      ⟨[⟨"a", "t1", 0, 0⟩, ⟨"a", "t2", 1, 1⟩], fun _ => .pending,
        fun _ => false⟩).futs 1 = .pending :=
  C3_exact_target_selectivity
    ⟨[⟨"a", "t1", 0, 0⟩, ⟨"a", "t2", 1, 1⟩], fun _ => .pending, fun _ => false⟩
    "a" "t1" "t2" ⟨"a", "t1", 0, 0⟩ ⟨"a", "t2", 1, 1⟩
    (by decide) (by decide) rfl rfl rfl rfl (by decide) (by decide) rfl
    (by decide)

/-! ### Claim C4 -/

/-- C4 counterexample: two records share slot 0; the matching record sits
earlier in insertion order than the non-matching one, so the scan (which
runs in reverse insertion order) sees the non-matching sharer first, before
slot 0 enters `set_futures`.  The non-matching sharer is NOT removed from
the registry and its timeout handle (1) is NOT cancelled, contradicting the
claim that the pass removes and cancels every record referencing the
resolved slot. -/
theorem C4_shared_slot_sharer_kept_cex :
    (callback_m_search_ok "a" ⟨"t1"⟩
      ⟨[⟨"a", "t1", 0, 0⟩, ⟨"a", "zz", 0, 1⟩], fun _ => .pending,
        fun _ => false⟩).pending = [⟨"a", "zz", 0, 1⟩] ∧
    (callback_m_search_ok "a" ⟨"t1"⟩
      ⟨[⟨"a", "t1", 0, 0⟩, ⟨"a", "zz", 0, 1⟩], fun _ => .pending,
        fun _ => false⟩).handles 1 = false := by
  decide

/-- C4 (amended): in one matching pass every MATCHING record is removed from
the registry and has its timeout handle cancelled, and a pending shared slot
is resolved exactly once, with the reply packet; non-matching records
referencing the same slot are only dropped when the scan (reverse insertion
order) meets them after a matching sharer, and their handles are never
cancelled by the pass. -/
theorem C4_matching_records_drained (s : EngineState) (address : String)
    (pkt : Packet) (e : Entry) (he : e ∈ s.pending)
    (hm : matchesB address pkt e = true) :
    e ∉ (callback_m_search_ok address pkt s).pending ∧
      (callback_m_search_ok address pkt s).handles e.handle = true ∧
      (s.futs e.fut = .pending →
        (callback_m_search_ok address pkt s).futs e.fut = .result pkt) := by
  refine ⟨?_, ?_, ?_⟩
  · intro hmem
    simp only [callback_m_search_ok] at hmem
    rw [List.mem_reverse] at hmem
    obtain ⟨_, hfalse⟩ :=
      scan_kept_sound address pkt s.pending.reverse [] s.futs s.handles e hmem
    rw [hm] at hfalse
    cases hfalse
  · simp only [callback_m_search_ok]
    exact scan_cancels_matched address pkt s.pending.reverse [] s.futs
      s.handles e (List.mem_reverse.mpr he) hm
  · intro hp
    simp only [callback_m_search_ok]
    exact scan_resolves address pkt s.pending.reverse [] s.futs s.handles e
      (List.mem_reverse.mpr he) hm hp (List.not_mem_nil _)

theorem C4_matching_records_drained_witness :
    (⟨"a", "t1", 0, 0⟩ : Entry) ∉
      (callback_m_search_ok "a" ⟨"t1"⟩
        ⟨[⟨"a", "t1", 0, 0⟩, ⟨"a", "t1", 0, 1⟩], fun _ => .pending,
          fun _ => false⟩).pending ∧
    (callback_m_search_ok "a" ⟨"t1"⟩
      ⟨[⟨"a", "t1", 0, 0⟩, ⟨"a", "t1", 0, 1⟩], fun _ => .pending,
        fun _ => false⟩).handles 0 = true ∧
    ((fun _ => FutState.pending) 0 = FutState.pending →
      (callback_m_search_ok "a" ⟨"t1"⟩
        ⟨[⟨"a", "t1", 0, 0⟩, ⟨"a", "t1", 0, 1⟩], fun _ => .pending,
          fun _ => false⟩).futs 0 = .result ⟨"t1"⟩) :=
  C4_matching_records_drained
    ⟨[⟨"a", "t1", 0, 0⟩, ⟨"a", "t1", 0, 1⟩], fun _ => .pending, fun _ => false⟩
    "a" ⟨"t1"⟩ ⟨"a", "t1", 0, 0⟩ (by decide) (by decide)

/-! ### Claim C6 -/

/-- C6: a result slot is resolved at most once.  Starting from a pending
slot: if the reply pass is serviced first and a matching entry references the
slot, the slot holds the reply and the later timeout firing is a no-op; if
the reply pass leaves the slot pending, the timeout firing cancels it; if the
timeout fires first, the slot is cancelled and the later reply pass leaves it
cancelled.  In every order the slot ends holding a single outcome, never both
a result and a cancellation. -/
theorem C6_slot_single_resolution (s : EngineState) (address : String)
    (pkt : Packet) (i : ℕ) (hp : s.futs i = .pending) :
    ((∃ e ∈ s.pending, matchesB address pkt e = true ∧ e.fut = i) →
      (callback_m_search_ok address pkt s).futs i = .result pkt ∧
        futCancel (callback_m_search_ok address pkt s).futs i i =
          .result pkt) ∧
    ((callback_m_search_ok address pkt s).futs i = .pending →
      futCancel (callback_m_search_ok address pkt s).futs i i = .cancelled) ∧
    (callback_m_search_ok address pkt
        { s with futs := futCancel s.futs i }).futs i = .cancelled := by
  refine ⟨?_, ?_, ?_⟩
  · rintro ⟨e, he, hm, rfl⟩
    have h1 : (callback_m_search_ok address pkt s).futs e.fut = .result pkt := by
      simp only [callback_m_search_ok]
      exact scan_resolves address pkt s.pending.reverse [] s.futs s.handles e
        (List.mem_reverse.mpr he) hm hp (List.not_mem_nil _)
    refine ⟨h1, ?_⟩
    rw [futCancel_done (by rw [h1]; rfl), h1]
  · intro hpend
    exact futCancel_pending_self hpend
  · simp only [callback_m_search_ok]
    have hc : futCancel s.futs i i = .cancelled := futCancel_pending_self hp
    have hd : ((futCancel s.futs i) i).done = true := by rw [hc]; rfl
    rw [scan_futs_done hd, hc]

theorem C6_slot_single_resolution_witness :
    futCancel (callback_m_search_ok "a" ⟨"t1"⟩
      ⟨[⟨"a", "t1", 0, 0⟩], fun _ => .pending, fun _ => false⟩).futs 0 0 =
      .result ⟨"t1"⟩ :=
  ((C6_slot_single_resolution
      ⟨[⟨"a", "t1", 0, 0⟩], fun _ => .pending, fun _ => false⟩
      "a" ⟨"t1"⟩ 0 rfl).1
    ⟨⟨"a", "t1", 0, 0⟩, by decide, by decide, rfl⟩).2

/-! ### Claim C9 -/

/-- C9 counterexample: registry `[("a","zz",slot 0), ("a","t1",slot 0)]` with
slot 0 already done (cancelled by an earlier timeout) before the pass.  The
reply `("a","t1")` matches the second record only; the pass resolves nothing
(slot 0 stays exactly as it was), yet the non-matching first record is
dropped from the registry because it shares slot 0 with the matched record
and the reverse-order scan meets it after that record.  So a non-matching
entry whose slot was not resolved in the pass is not retained. -/
theorem C9_stale_slot_sharer_dropped_cex :
    (callback_m_search_ok "a" ⟨"t1"⟩
      ⟨[⟨"a", "zz", 0, 1⟩, ⟨"a", "t1", 0, 2⟩], fun _ => .cancelled,
        fun _ => false⟩).pending = [] ∧
    matchesB "a" ⟨"t1"⟩ ⟨"a", "zz", 0, 1⟩ = false ∧
    (callback_m_search_ok "a" ⟨"t1"⟩
      ⟨[⟨"a", "zz", 0, 1⟩, ⟨"a", "t1", 0, 2⟩], fun _ => .cancelled,
        fun _ => false⟩).futs 0 = .cancelled := by
  decide

/-- C9 (amended): the pending entries that do not match the reply and whose
result slot is referenced by no matching entry of the registry are all still
present after the pass, in their original relative order (their sublist of
the registry is unchanged); a non-matching entry sharing its slot with a
matching entry may instead be dropped, whether or not the slot was actually
resolved during the pass. -/
theorem C9_nonmatching_unshared_retained (s : EngineState) (address : String)
    (pkt : Packet) (P : Entry → Bool)
    (hPm : ∀ e, P e = true → matchesB address pkt e = false)
    (hPs : ∀ e e', P e = true → e' ∈ s.pending →
      matchesB address pkt e' = true → e'.fut ≠ e.fut) :
    ((callback_m_search_ok address pkt s).pending).filter P =
      s.pending.filter P := by
  simp only [callback_m_search_ok]
  have h := scan_kept_filter address pkt P hPm s.pending.reverse [] s.futs
    s.handles (fun e _ => List.not_mem_nil e.fut)
    (fun e e' hP he' => hPs e e' hP (List.mem_reverse.mp he'))
  rw [List.filter_reverse, h, List.filter_reverse, List.reverse_reverse]

theorem C9_nonmatching_unshared_retained_witness :
    ((callback_m_search_ok "a" ⟨"t1"⟩
      ⟨[⟨"a", "keep", 5, 0⟩, ⟨"a", "t1", 0, 1⟩], fun _ => .pending,
        fun _ => false⟩).pending).filter
      (fun e => !matchesB "a" ⟨"t1"⟩ e && decide (e.fut ≠ 0)) =
    ([⟨"a", "keep", 5, 0⟩, ⟨"a", "t1", 0, 1⟩] : List Entry).filter
      (fun e => !matchesB "a" ⟨"t1"⟩ e && decide (e.fut ≠ 0)) :=
  C9_nonmatching_unshared_retained
    ⟨[⟨"a", "keep", 5, 0⟩, ⟨"a", "t1", 0, 1⟩], fun _ => .pending,
      fun _ => false⟩
    "a" ⟨"t1"⟩ (fun e => !matchesB "a" ⟨"t1"⟩ e && decide (e.fut ≠ 0))
    (fun e hP => by
      simp only [Bool.and_eq_true, Bool.not_eq_true', decide_eq_true_eq] at hP
      exact hP.1)
    (fun e e' hP he' hm' => by
      have hfut : e.fut ≠ 0 := by
        simp only [Bool.and_eq_true, Bool.not_eq_true', decide_eq_true_eq] at hP
        exact hP.2
      rcases List.mem_cons.mp he' with rfl | h
      · exact absurd hm' (by decide)
      · rcases List.mem_cons.mp h with rfl | h2
        · intro hc
          exact hfut hc.symm
        · cases h2)

/-! ### Module-level operations: helper lemmas -/

theorem chunks2_length {α : Type} :
    ∀ l : List α, (chunks2 l).length = (l.length + 1) / 2
  | [] => by simp [chunks2]
  | [_] => by simp [chunks2]
  | _ :: _ :: rest => by
    simp only [chunks2, List.length_cons, chunks2_length rest]
    omega

theorem failedMsg_ne_timeoutMsg (gw : String) : failedMsg ≠ timeoutMsg gw := by
  intro h
  have hl := congrArg String.length h
  simp only [failedMsg, timeoutMsg, String.length_append] at hl
  have h1 : ("failed to discover gateway" : String).length = 26 := rfl
  have h2 : ("M-SEARCH for " : String).length = 13 := rfl
  have h3 : (":" : String).length = 1 := rfl
  have h4 : (toString SSDP_PORT).length = 4 := rfl
  have h5 : (" timed out" : String).length = 10 := rfl
  rw [h1, h2, h3, h4, h5] at hl
  omega

theorem disambiguate_all_upnp_fail (f : ParamSet → ℚ → Except MErr Packet) :
    ∀ args : List ParamSet, (∀ a ∈ args, ∃ m, f a 3 = .error (.upnp m)) →
      disambiguate f args = .error (.upnp failedMsg)
  | [], _ => rfl
  | a :: rest, hall => by
    obtain ⟨m, hm⟩ := hall a (List.mem_cons_self _ _)
    unfold disambiguate
    rw [hm]
    exact disambiguate_all_upnp_fail f rest
      (fun b hb => hall b (List.mem_cons_of_mem _ hb))

theorem disambiguate_first_ok (f : ParamSet → ℚ → Except MErr Packet) :
    ∀ (pre : List ParamSet) (a : ParamSet) (rest : List ParamSet) (p : Packet),
      (∀ b ∈ pre, ∃ m, f b 3 = .error (.upnp m)) → f a 3 = .ok p →
      disambiguate f (pre ++ a :: rest) = .ok (a, p)
  | [], a, rest, p, _, hok => by
    rw [List.nil_append]
    unfold disambiguate
    rw [hok]
  | b :: pre, a, rest, p, hpre, hok => by
    obtain ⟨m, hm⟩ := hpre b (List.mem_cons_self _ _)
    rw [List.cons_append]
    unfold disambiguate
    rw [hm]
    exact disambiguate_first_ok f pre a rest p
      (fun b' hb => hpre b' (List.mem_cons_of_mem _ hb)) hok

theorem buildPackets_none :
    ∀ l : List ParamSet, (∃ d ∈ l, d.st = none) →
      buildPackets l = .error .assertionError := by
  intro l
  induction l with
  | nil => rintro ⟨d, hd, _⟩; cases hd
  | cons d rest ih =>
    rintro ⟨e, he, hnone⟩
    simp only [buildPackets]
    rcases List.mem_cons.mp he with rfl | hmem
    · rw [hnone]
    · cases hst : d.st with
      | none => rfl
      | some s => rw [ih ⟨e, hmem, hnone⟩]

/-! ### Claim C5 -/

/-- C5 counterexample: `_fuzzy_m_search` computes the per-batch wait as
`float(timeout) / float(len(packet_args))`; with total timeout 30 and 10
candidates that is 3 time units per batch, not the 2.5 units the claim
states (30/10 = 3 ≠ 5/2). -/
theorem C5_batch_timeout_cex :
    batchTimeout 30 10 = 3 ∧ batchTimeout 30 10 ≠ 5 / 2 := by
  constructor
  · norm_num [batchTimeout]
  · norm_num [batchTimeout]

/-- C5 (amended): fuzzy discovery over 10 candidate parameter sets with total
timeout 30 and batch size 2 processes them as 5 batches, each awaiting
`batchTimeout 30 10 = 30 / 10 = 3` time units, the total timeout divided by
the number of candidates. -/
theorem C5_five_batches_of_three (cands : List ParamSet)
    (h : cands.length = 10) :
    (chunks2 cands).length = 5 ∧ batchTimeout 30 cands.length = 3 := by
  constructor
  · rw [chunks2_length, h]
  · rw [h]
    norm_num [batchTimeout]

theorem C5_five_batches_of_three_witness :
    (chunks2 (List.replicate 10 (⟨some "urn:igd"⟩ : ParamSet))).length = 5 ∧
    batchTimeout 30 (List.replicate 10 (⟨some "urn:igd"⟩ : ParamSet)).length =
      3 :=
  C5_five_batches_of_three (List.replicate 10 ⟨some "urn:igd"⟩) rfl

/-! ### Claim C7 -/

/-- C7: disambiguation retries each candidate of the viable batch with one
independent single search at the fixed timeout 3, in the batch's original
order, returns the first candidate whose retry succeeds together with its
reply, and when every retry fails with a `UPnPError` it raises the generic
`"failed to discover gateway"` error, whose message differs from the plain
timeout message for every gateway address. -/
theorem C7_disambiguation (f : ParamSet → ℚ → Except MErr Packet)
    (args : List ParamSet) :
    ((∀ a ∈ args, ∃ m, f a 3 = .error (.upnp m)) →
      disambiguate f args = .error (.upnp failedMsg)) ∧
    (∀ pre a rest p, args = pre ++ a :: rest →
      (∀ b ∈ pre, ∃ m, f b 3 = .error (.upnp m)) → f a 3 = .ok p →
      disambiguate f args = .ok (a, p)) ∧
    (∀ gw, (MErr.upnp failedMsg) ≠ .upnp (timeoutMsg gw)) := by
  refine ⟨disambiguate_all_upnp_fail f args, ?_, ?_⟩
  · intro pre a rest p hsplit hpre hok
    rw [hsplit]
    exact disambiguate_first_ok f pre a rest p hpre hok
  · intro gw hc
    exact failedMsg_ne_timeoutMsg gw (MErr.upnp.inj hc)

theorem C7_disambiguation_witness :
    disambiguate
      (fun a _ => match a.st with
        | some s => .ok ⟨s⟩
        | none => .error (.upnp "boom"))
      [⟨none⟩, ⟨some "urn:igd"⟩] = .ok (⟨some "urn:igd"⟩, ⟨"urn:igd"⟩) :=
  (C7_disambiguation _ [⟨none⟩, ⟨some "urn:igd"⟩]).2.1
    [⟨none⟩] ⟨some "urn:igd"⟩ [] ⟨"urn:igd"⟩ rfl
    (fun b hb => by
      rcases List.mem_singleton.mp hb with rfl
      exact ⟨"boom", rfl⟩)
    rfl

/-! ### Claim C8 -/

/-- C8: if any parameter set handed to the engine's `m_search` carries a null
search target, the packet-building loop fails with the `AssertionError`
before `send_many_m_searches` runs, so no request datagram is sent. -/
theorem C8_null_st_fails_before_send (datagrams : List ParamSet)
    (h : ∃ d ∈ datagrams, d.st = none) :
    buildPackets datagrams = .error .assertionError ∧
      sentPackets datagrams = [] := by
  have hb := buildPackets_none datagrams h
  exact ⟨hb, by simp [sentPackets, hb]⟩

theorem C8_null_st_fails_before_send_witness :
    buildPackets [(⟨none⟩ : ParamSet), ⟨some "urn:igd"⟩] =
      .error .assertionError ∧
    sentPackets [(⟨none⟩ : ParamSet), ⟨some "urn:igd"⟩] = [] :=
  C8_null_st_fails_before_send [⟨none⟩, ⟨some "urn:igd"⟩]
    ⟨⟨none⟩, List.mem_cons_self _ _, rfl⟩

/-! ### Claim C2 -/

/-- C2: the module-level `m_search` closes the transport it acquires exactly
once on every exit path (reply, timeout/cancellation, assertion failure,
unexpected error), but `_fuzzy_m_search` never closes the transport it
acquires through `listen_ssdp` — its body has no `finally` and no
`transport.close()` — so at the concrete input below (gateway
`192.168.1.1`, 10 candidates, every batch timing out) that transport's close
count is 0, not 1. -/
theorem C2_transport_close_counts :
    (∀ gw d o, (m_search_module gw d o).2 = 1) ∧
    (fuzzy_m_search_run "192.168.1.1" (List.replicate 10 ⟨some "urn:igd"⟩) 30
      (fun _ _ => .timeoutOrCancelled)).2 = 0 := by
  constructor
  · intro gw d o
    cases hd : d.st <;> cases o <;> simp [m_search_module, buildPackets, hd]
  · rfl

/-! ### Claim C10 -/

/-- C10: calling the public `m_search` with a parameter set whose search
target is null surfaces the `AssertionError` itself, which is not the
wrapped UPnP domain error; only the timeout/cancellation outcome is
converted into the UPnP error naming the gateway address and the SSDP port;
and the transport is still closed exactly once before the assertion error
propagates. -/
theorem C10_assertion_not_wrapped (gw : String) (d : ParamSet)
    (o : AwaitOutcome) (h : d.st = none) :
    (m_search_module gw d o).1 = .error .assertionError ∧
      (∀ m, (MErr.assertionError : MErr) ≠ .upnp m) ∧
      (m_search_module gw d o).2 = 1 ∧
      (∀ d' s, d'.st = some s →
        (m_search_module gw d' .timeoutOrCancelled).1 =
          .error (.upnp (timeoutMsg gw))) := by
  refine ⟨?_, ?_, ?_, ?_⟩
  · simp [m_search_module, buildPackets, h]
  · intro m hc
    cases hc
  · simp [m_search_module, buildPackets, h]
  · intro d' s hs
    simp [m_search_module, buildPackets, hs]

theorem C10_assertion_not_wrapped_witness :
    (m_search_module "192.168.1.1" ⟨none⟩ .timeoutOrCancelled).1 =
      .error .assertionError ∧
    (m_search_module "192.168.1.1" ⟨some "urn:igd"⟩ .timeoutOrCancelled).1 =
      .error (.upnp (timeoutMsg "192.168.1.1")) :=
  ⟨(C10_assertion_not_wrapped "192.168.1.1" ⟨none⟩ .timeoutOrCancelled rfl).1,
   (C10_assertion_not_wrapped "192.168.1.1" ⟨none⟩
       .timeoutOrCancelled rfl).2.2.2 ⟨some "urn:igd"⟩ "urn:igd" rfl⟩
